import Mathlib

/-!
Verification development for the hCaptcha challenge-orchestration core
(`src/services/utils/armor/anti_hcaptcha/core.py`, class `ArmorCaptcha`).

Python strings are modelled as Lean `String` values; the string primitives the
source relies on (`re.split` on a character class, `re.split` on a literal
pattern, `str.strip`, slicing, `in`-substring tests, `str.replace`) are given
executable embeddings over `List Char` so every concrete run can be settled by
kernel evaluation. Stateful methods become explicit state-passing functions;
Selenium/driver behaviour is an explicit input (an enumeration of the ways a
call can return or raise); `raise` becomes `Except`.
-/

set_option maxRecDepth 10000

/-! Python string primitives, embedded over character lists. -/

/-- Boolean test: the first list is a leading segment of the second
(used to detect a literal pattern at the head of the remaining input). -/
def startsWithSeq : List Char → List Char → Bool
  | [], _ => true
  | _ :: _, [] => false
  | c :: cs, d :: ds => c == d && startsWithSeq cs ds

/-- Python `sub in s`: `sub` occurs contiguously somewhere in `s`. -/
def containsSeq (sub : List Char) : List Char → Bool
  | [] => startsWithSeq sub []
  | c :: rest => startsWithSeq sub (c :: rest) || containsSeq sub rest

/-- Python `re.split` on a single-character class: split at every character
satisfying the class, keeping empty segments (exactly `re.split` semantics). -/
def splitOnPred (p : Char → Bool) : List Char → List (List Char)
  | [] => [[]]
  | c :: rest =>
    if p c then [] :: splitOnPred p rest
    else
      match splitOnPred p rest with
      | [] => [[c]]
      | h :: t => (c :: h) :: t

/-- Worker for `splitLit`: scans the input left to right, consuming the literal
separator `s0 :: st` wherever it matches. `fuel` bounds the scan by the input
length so the definition is structural and kernel-reducible. -/
def splitLitGo (s0 : Char) (st : List Char) :
    Nat → List Char → List Char → List (List Char) → List (List Char)
  | 0, l, cur, acc => ((cur.reverse ++ l) :: acc).reverse
  | _ + 1, [], cur, acc => (cur.reverse :: acc).reverse
  | fuel + 1, c :: rest, cur, acc =>
    if startsWithSeq (s0 :: st) (c :: rest) then
      splitLitGo s0 st fuel (rest.drop st.length) [] (cur.reverse :: acc)
    else
      splitLitGo s0 st fuel rest (c :: cur) acc

/-- Python `re.split` on a literal (metacharacter-free) pattern, e.g.
`re.split(r"containing a", s)`: non-overlapping left-to-right splitting,
keeping empty segments. -/
def splitLit (sep : List Char) (l : List Char) : List (List Char) :=
  match sep with
  | [] => [l]
  | s0 :: st => splitLitGo s0 st (l.length + 1) l [] []

/-- Python `str.strip()`: drop whitespace from both ends. -/
def pyStrip (l : List Char) : List Char :=
  ((l.dropWhile Char.isWhitespace).reverse.dropWhile Char.isWhitespace).reverse

/-- Association-list lookup, the embedding of Python `dict.get(key)` for the
string-keyed literal dictionaries of the source (first match wins; the
source's dict literals have pairwise-distinct keys). -/
def dictGet : List (String × String) → String → Option String
  | [], _ => none
  | (k, v) :: rest, key => if key = k then some v else dictGet rest key

/-- Python truthiness of a `dict.get` result: `None` and the empty string are
falsy, every other string is truthy. -/
def truthy : Option String → Bool
  | none => false
  | some s => !(s == "")

/-! Exceptions. The source imports exactly these challenge-level exception
classes: `LabelNotFoundException`, `ChallengeReset`, `SubmitException`
(from `.exceptions`). -/

/-- The challenge-level exceptions raised by `core.py`. -/
inductive ArmorException where
  | LabelNotFoundException
  | ChallengeReset
  | SubmitException
deriving DecidableEq

/-! The static label→alias dictionary (`core.py` lines 29-46). The constructor
additionally merges a recognizer-provided localized vocabulary
(`pom_handler.label_alias`), which lives in an external collaborator module;
the table below is the dictionary this source file defines. -/

/-- The class attribute `label_alias`: localized label text → canonical
English alias. -/
def label_alias : List (String × String) :=
  [("自行车", "bicycle"), ("火车", "train"), ("卡车", "truck"), ("公交车", "bus"),
   ("巴士", "bus"), ("飞机", "airplane"), ("一条船", "boat"), ("船", "boat"),
   ("摩托车", "motorcycle"), ("垂直河流", "vertical river"),
   ("天空中向左飞行的飞机", "airplane in the sky flying left"),
   ("请选择天空中所有向右飞行的飞机", "airplanes in the sky that are flying to the right"),
   ("汽车", "car"), ("大象", "elephant"), ("鸟", "bird"), ("狗", "dog")]

/-! The homoglyph-correction table `BAD_CODE` and `label_cleaning`
(`core.py` lines 48-61 and 231-236). Keys are written with unicode escapes;
they are the exact code points of the source table. -/

/-- The fixed homoglyph table `BAD_CODE`, in the source's insertion order:
Cyrillic а→a, Cyrillic е→e, the identity entries e→e and i→i,
Ukrainian і→i, Greek ο→o, Cyrillic с→c, Cyrillic ԁ→d, Cyrillic ѕ→s,
Cyrillic һ→h, katakana prolonged-sound mark→CJK 一, and CJK 土→士. -/
def BAD_CODE : List (Char × Char) :=
  [('а', 'a'), ('е', 'e'), ('e', 'e'), ('i', 'i'),
   ('і', 'i'), ('ο', 'o'), ('с', 'c'), ('ԁ', 'd'),
   ('ѕ', 's'), ('һ', 'h'), ('ー', '一'), ('土', '士')]

/-- Python `s.replace(k, v)` for one-character `k` and `v`: substitute every
occurrence. -/
def substChar (k v : Char) (c : Char) : Char := if c = k then v else c

/-- One `clean_label.replace(c, BAD_CODE[c])` step over the character list. -/
def replaceChar (k v : Char) (cs : List Char) : List Char := cs.map (substChar k v)

/-- `label_cleaning` (`get_label`'s inner helper): run the `BAD_CODE`
replacements over the raw label, in table order. -/
def label_cleaning (raw_label : String) : String :=
  ⟨BAD_CODE.foldl (fun clean kv => replaceChar kv.1 kv.2 clean) raw_label.data⟩

/-- The per-character substitution realised by running all `BAD_CODE`
replacements in table order. -/
def badCodeSubst (c : Char) : Char :=
  BAD_CODE.foldl (fun a kv => substChar kv.1 kv.2 a) c

lemma data_mk (l : List Char) : (⟨l⟩ : String).data = l := rfl

lemma foldl_replaceChar_eq_map (T : List (Char × Char)) :
    ∀ l : List Char,
      T.foldl (fun clean kv => replaceChar kv.1 kv.2 clean) l
        = l.map (fun c => T.foldl (fun a kv => substChar kv.1 kv.2 a) c) := by
  induction T with
  | nil => intro l; simp
  | cons kv rest ih =>
    intro l
    simp only [List.foldl_cons]
    rw [ih (replaceChar kv.1 kv.2 l)]
    simp only [replaceChar, List.map_map]
    rfl

lemma label_cleaning_eq_map (l : List Char) :
    BAD_CODE.foldl (fun clean kv => replaceChar kv.1 kv.2 clean) l = l.map badCodeSubst := by
  rw [foldl_replaceChar_eq_map]
  rfl

lemma badCodeSubst_not_key (c : Char)
    (h1 : c ≠ 'а') (h2 : c ≠ 'е') (h3 : c ≠ 'e') (h4 : c ≠ 'i')
    (h5 : c ≠ 'і') (h6 : c ≠ 'ο') (h7 : c ≠ 'с') (h8 : c ≠ 'ԁ')
    (h9 : c ≠ 'ѕ') (h10 : c ≠ 'һ') (h11 : c ≠ 'ー') (h12 : c ≠ '土') :
    badCodeSubst c = c := by
  simp [badCodeSubst, BAD_CODE, substChar, h1, h2, h3, h4, h5, h6, h7, h8, h9, h10, h11, h12]

lemma badCodeSubst_idem (c : Char) : badCodeSubst (badCodeSubst c) = badCodeSubst c := by
  by_cases h1 : c = 'а'
  · subst h1; decide
  by_cases h2 : c = 'е'
  · subst h2; decide
  by_cases h3 : c = 'e'
  · subst h3; decide
  by_cases h4 : c = 'i'
  · subst h4; decide
  by_cases h5 : c = 'і'
  · subst h5; decide
  by_cases h6 : c = 'ο'
  · subst h6; decide
  by_cases h7 : c = 'с'
  · subst h7; decide
  by_cases h8 : c = 'ԁ'
  · subst h8; decide
  by_cases h9 : c = 'ѕ'
  · subst h9; decide
  by_cases h10 : c = 'һ'
  · subst h10; decide
  by_cases h11 : c = 'ー'
  · subst h11; decide
  by_cases h12 : c = '土'
  · subst h12; decide
  rw [badCodeSubst_not_key c h1 h2 h3 h4 h5 h6 h7 h8 h9 h10 h11 h12,
      badCodeSubst_not_key c h1 h2 h3 h4 h5 h6 h7 h8 h9 h10 h11 h12]

/-- C6: the homoglyph-correction pass `label_cleaning` over the fixed
`BAD_CODE` table is idempotent: for every input string, applying it twice
yields the same string as applying it once. -/
theorem label_cleaning_idempotent (s : String) :
    label_cleaning (label_cleaning s) = label_cleaning s := by
  have h : ∀ l : List Char, (l.map badCodeSubst).map badCodeSubst = l.map badCodeSubst := by
    intro l
    induction l with
    | nil => rfl
    | cons c cs ih =>
      simp only [List.map_cons]
      rw [badCodeSubst_idem c, ih]
  simp only [label_cleaning, data_mk, label_cleaning_eq_map, h]

/-! Label acquisition (`get_label`, `core.py` lines 216-255) and its inner
helper `split_prompt_message`. The helper builds a dictionary with one entry
per display language eagerly and then indexes it with `_lang`; `get_label`
always calls it with the default `_lang="zh"`. An out-of-range slice while
building the zh entry is an `IndexError`, caught by `get_label` together with
`AttributeError` and converted to `LabelNotFoundException`. -/

/-- The display languages of `split_prompt_message`'s `labels_mirror`
dictionary. -/
inductive Lang where
  | zh
  | en
deriving DecidableEq

/-- The character class of the zh branch's `re.split(r"[包含 图片]", ...)`. -/
def zhSep (c : Char) : Bool := c == '包' || c == '含' || c == ' ' || c == '图' || c == '片'

/-- The zh entry of `labels_mirror`: when the scaffolding `包含` occurs, split
on the character class, take index 2 (an out-of-range index is `IndexError`,
hence `none`) and drop the final character; otherwise the prompt itself. -/
def zh_extract (p : String) : Option String :=
  if containsSeq "包含".data p.data then
    ((splitOnPred zhSep p.data)[2]?).map (fun l => (⟨l.dropLast⟩ : String))
  else some p

/-- The en entry of `labels_mirror`: when `containing` occurs, split on the
literal `containing a`, take the last segment, drop its first character,
strip whitespace and remove every dot; otherwise the prompt itself. -/
def en_extract (p : String) : String :=
  if containsSeq "containing".data p.data then
    let segs := splitLit "containing a".data p.data
    let lastSeg : List Char := segs.reverse.headD []
    ⟨(pyStrip (lastSeg.drop 1)).filter (fun c => c ≠ '.')⟩
  else p

/-- `split_prompt_message(prompt_message, _lang)`: both language entries are
built eagerly (so a zh-side `IndexError` propagates regardless of `_lang`),
then the `_lang` entry is returned. -/
def split_prompt_message (prompt_message : String) (lang : Lang) : Option String :=
  match zh_extract prompt_message, lang with
  | none, _ => none
  | some zh_label, Lang.zh => some zh_label
  | some _, Lang.en => some (en_extract prompt_message)

/-- What the 30-unit prompt wait hands to `get_label`: the wait times out, or
an element is produced whose `.text` read fails (`AttributeError`), or an
element with readable text is produced. -/
inductive PromptEvent where
  | timeout
  | unreadable
  | text (t : String)

/-- `get_label`: a timeout raises `ChallengeReset` (message: the challenge was
passed unexpectedly); an `AttributeError`/`IndexError` while reading or
slicing the prompt raises `LabelNotFoundException`; otherwise the sliced
label is cleaned (`label_cleaning`) and stored. The call passes no `_lang`,
so the default `"zh"` is used. -/
def get_label (ev : PromptEvent) : Except ArmorException String :=
  match ev with
  | PromptEvent.timeout => Except.error ArmorException.ChallengeReset
  | PromptEvent.unreadable => Except.error ArmorException.LabelNotFoundException
  | PromptEvent.text t =>
    match split_prompt_message t Lang.zh with
    | none => Except.error ArmorException.LabelNotFoundException
    | some l => Except.ok (label_cleaning l)

/-- The English prompt of end-to-end scenario A. -/
def EnglishPrompt : String := "Please click on all images containing a bicycle."

/-! Support lemmas: a `re.split` on a character class yields one segment per
separator occurrence plus one, so a prompt containing `包含` always splits
into at least three segments and the zh slice `[2]` cannot under-run. -/

lemma splitOnPred_ne_nil (p : Char → Bool) (l : List Char) : splitOnPred p l ≠ [] := by
  cases l with
  | nil => simp [splitOnPred]
  | cons c rest =>
    simp only [splitOnPred]
    split
    · simp
    · split
      · simp
      · simp

lemma splitOnPred_length (p : Char → Bool) (l : List Char) :
    (splitOnPred p l).length = 1 + l.countP p := by
  induction l with
  | nil => simp [splitOnPred]
  | cons c rest ih =>
    cases hsp : splitOnPred p rest with
    | nil => exact absurd hsp (splitOnPred_ne_nil p rest)
    | cons h t =>
      rw [hsp] at ih
      cases hc : p c with
      | true =>
        simp [splitOnPred, hc, hsp, List.countP_cons, ih]
        omega
      | false =>
        simp [splitOnPred, hc, hsp, List.countP_cons]
        simp at ih
        omega

lemma startsWithSeq_decomp (sub : List Char) :
    ∀ l : List Char, startsWithSeq sub l = true → ∃ post, l = sub ++ post := by
  induction sub with
  | nil => intro l _; exact ⟨l, rfl⟩
  | cons c cs ih =>
    intro l h
    cases l with
    | nil => simp [startsWithSeq] at h
    | cons d ds =>
      simp only [startsWithSeq, Bool.and_eq_true, beq_iff_eq] at h
      obtain ⟨post, hpost⟩ := ih ds h.2
      exact ⟨post, by rw [h.1, hpost]; rfl⟩

lemma containsSeq_decomp (sub : List Char) :
    ∀ l : List Char, containsSeq sub l = true → ∃ pre post, l = pre ++ sub ++ post := by
  intro l
  induction l with
  | nil =>
    intro h
    obtain ⟨post, hpost⟩ := startsWithSeq_decomp sub [] h
    exact ⟨[], post, by simpa using hpost⟩
  | cons c rest ih =>
    intro h
    simp only [containsSeq, Bool.or_eq_true] at h
    cases h with
    | inl h =>
      obtain ⟨post, hpost⟩ := startsWithSeq_decomp sub (c :: rest) h
      exact ⟨[], post, by simpa using hpost⟩
    | inr h =>
      obtain ⟨pre, post, hl⟩ := ih h
      exact ⟨c :: pre, post, by rw [hl]; rfl⟩

lemma zh_slice_defined (t : String) (h : containsSeq "包含".data t.data = true) :
    ((splitOnPred zhSep t.data)[2]?).isSome := by
  obtain ⟨pre, post, hl⟩ := containsSeq_decomp "包含".data t.data h
  have hcount : 2 ≤ t.data.countP zhSep := by
    rw [hl]
    rw [List.countP_append, List.countP_append]
    have : ("包含".data.countP zhSep) = 2 := by decide
    omega
  have hlen : 3 ≤ (splitOnPred zhSep t.data).length := by
    rw [splitOnPred_length]
    omega
  rw [List.getElem?_eq_getElem (by omega)]
  simp

lemma zh_extract_isSome (t : String) : (zh_extract t).isSome := by
  unfold zh_extract
  by_cases h : containsSeq "包含".data t.data = true
  · rw [if_pos h]
    have := zh_slice_defined t h
    cases hv : (splitOnPred zhSep t.data)[2]? with
    | none => rw [hv] at this; simp at this
    | some v => simp [hv]
  · rw [if_neg h]
    simp

/-- C1 counterexample: for the English prompt of scenario A, `get_label`
(which always selects the default display language zh) stores the whole
prompt as the label — the extracted label is not "bicycle". -/
theorem get_label_en_prompt_stores_whole_prompt :
    get_label (PromptEvent.text EnglishPrompt) = Except.ok EnglishPrompt
      ∧ (EnglishPrompt == "bicycle") = false := by
  constructor
  · rfl
  · decide

/-- C1 (amended): `split_prompt_message` with the en language selected locates
the scaffolding `containing a` in the English prompt and extracts "bicycle";
`get_label`, however, calls it with the default language zh, whose scaffolding
`包含` is absent from that prompt, so the whole prompt is stored as the label
verbatim — as for any prompt lacking the active language's scaffolding
phrase. -/
theorem split_prompt_message_language_policy :
    split_prompt_message EnglishPrompt Lang.en = some "bicycle"
      ∧ get_label (PromptEvent.text EnglishPrompt) = Except.ok EnglishPrompt
      ∧ ∀ p : String, containsSeq "包含".data p.data = false →
          split_prompt_message p Lang.zh = some p := by
  refine ⟨by decide, by rfl, ?_⟩
  intro p h
  simp [split_prompt_message, zh_extract, h]

/-- Witness for C1's amended theorem at the concrete prompt "bicycle". -/
theorem split_prompt_message_language_policy_witness :
    containsSeq "包含".data "bicycle".data = false
      ∧ split_prompt_message "bicycle" Lang.zh = some "bicycle" :=
  ⟨by decide, split_prompt_message_language_policy.2.2 "bicycle" (by decide)⟩

/-- C8 counterexample: the timeout failure of `get_label` is the exception the
source names `ChallengeReset` (there is no `ChallengeAlreadyPassed` among the
exceptions the source imports), and an empty prompt text is not an error at
all: it yields the empty label rather than `LabelNotFoundException`. -/
theorem get_label_timeout_and_empty_text :
    get_label PromptEvent.timeout = Except.error ArmorException.ChallengeReset
      ∧ get_label (PromptEvent.text "") = Except.ok "" := by
  constructor
  · rfl
  · rfl

/-- C8 (amended): label acquisition distinguishes its two failures — a prompt
element that never appears within the bounded wait raises `ChallengeReset`
(the source's challenge-already-passed signal), while a prompt object whose
text cannot be read raises `LabelNotFoundException`; the two exceptions are
distinct. For a prompt element with readable text the label path is total:
slicing can never under-run (a prompt containing `包含` always splits into at
least three segments), so every text yields a label — in particular an empty
text yields the empty label rather than an error. -/
theorem get_label_error_modes :
    get_label PromptEvent.timeout = Except.error ArmorException.ChallengeReset
      ∧ get_label PromptEvent.unreadable = Except.error ArmorException.LabelNotFoundException
      ∧ ArmorException.ChallengeReset ≠ ArmorException.LabelNotFoundException
      ∧ ∀ t : String, ∃ l : String, get_label (PromptEvent.text t) = Except.ok l := by
  refine ⟨rfl, rfl, by decide, ?_⟩
  intro t
  cases hz : zh_extract t with
  | none =>
    have := zh_extract_isSome t
    rw [hz] at this
    simp at this
  | some zh_label =>
    exact ⟨label_cleaning zh_label, by simp [get_label, split_prompt_message, hz]⟩

/-- Witness for C8's theorem: the text path is total at the concrete prompt
"狗". -/
theorem get_label_error_modes_witness :
    ∃ l : String, get_label (PromptEvent.text "狗") = Except.ok l :=
  get_label_error_modes.2.2.2 "狗"

/-! Recognizer selection (`switch_solution`, `core.py` lines 170-187). -/

/-- The three recognizer families `switch_solution` can return: a pluggable
ONNX model keyed by alias, an SK-image heuristic recognizer (identified by
its class name), or the YOLO fallback model. -/
inductive Solution where
  | onnxModel (aliasName : String)
  | skRecognition (cls : String)
  | yoloModel
deriving DecidableEq

/-- The `sk_solution` dictionary: heuristic recognizer class per alias. -/
def sk_solution : List (String × String) :=
  [("vertical river", "VerticalRiverRecognition"),
   ("airplane in the sky flying left", "LeftPlaneRecognition"),
   ("airplanes in the sky that are flying to the right", "RightPlaneRecognition")]

/-- `switch_solution`: look the current label up in the alias dictionary; a
model registered under the alias wins, else the heuristic for the alias, else
the YOLO fallback. `alias_map` is the session's merged alias dictionary and
`models` the truthiness of `pluggable_onnx_models.get`; a label with no alias
falls through to the fallback, since `dict.get(None)` is `None` on both
registries. -/
def switch_solution (models : String → Bool) (alias_map : String → Option String)
    (label : String) : Solution :=
  match alias_map label with
  | none => Solution.yoloModel
  | some a =>
    if models a then Solution.onnxModel a
    else
      match dictGet sk_solution a with
      | some cls => Solution.skRecognition cls
      | none => Solution.yoloModel

/-- C2: recognizer selection is total and follows the priority order — the
ONNX model keyed by the label's canonical alias when the registry has one,
else the heuristic recognizer when the alias has one, else the YOLO
fallback (also when the label has no alias at all). -/
theorem switch_solution_priority (models : String → Bool)
    (alias_map : String → Option String) (label : String) :
    (∀ a, alias_map label = some a → models a = true →
        switch_solution models alias_map label = Solution.onnxModel a)
      ∧ (∀ a cls, alias_map label = some a → models a = false →
          dictGet sk_solution a = some cls →
          switch_solution models alias_map label = Solution.skRecognition cls)
      ∧ (∀ a, alias_map label = some a → models a = false →
          dictGet sk_solution a = none →
          switch_solution models alias_map label = Solution.yoloModel)
      ∧ (alias_map label = none → switch_solution models alias_map label = Solution.yoloModel) := by
  refine ⟨?_, ?_, ?_, ?_⟩
  · intro a ha hm
    simp [switch_solution, ha, hm]
  · intro a cls ha hm hsk
    simp [switch_solution, ha, hm, hsk]
  · intro a ha hm hsk
    simp [switch_solution, ha, hm, hsk]
  · intro ha
    simp [switch_solution, ha]

/-- Witness for C2 at scenario B's label: "垂直河流" has canonical alias
"vertical river"; with no ONNX model loaded for it, the vertical-river
heuristic is selected, not the fallback. -/
theorem switch_solution_priority_witness :
    dictGet label_alias "垂直河流" = some "vertical river"
      ∧ dictGet sk_solution "vertical river" = some "VerticalRiverRecognition"
      ∧ switch_solution (fun _ => false) (dictGet label_alias) "垂直河流"
          = Solution.skRecognition "VerticalRiverRecognition" :=
  ⟨by decide, by decide,
    (switch_solution_priority (fun _ => false) (dictGet label_alias) "垂直河流").2.1
      "vertical river" "VerticalRiverRecognition" (by decide) rfl (by decide)⟩

/-! Challenge outcome constants (`core.py` lines 63-74) and tactical retreat
(lines 257-280). -/

def CHALLENGE_SUCCESS : String := "success"

def CHALLENGE_CONTINUE : String := "continue"

def CHALLENGE_CRASH : String := "crash"

def CHALLENGE_RETRY : String := "retry"

def CHALLENGE_REFRESH : String := "refresh"

def CHALLENGE_BACKCALL : String := "backcall"

/-- How the lookup of the challenge-container element behaves inside
`tactical_retreat`: it is found, or `NoSuchElementException` is raised
(silently passed), or another `WebDriverException` is raised (logged). -/
inductive ContainerLookup where
  | found
  | missing
  | webdriverErr
deriving DecidableEq

/-- Result of `tactical_retreat`: the returned outcome string and how many
diagnostic screenshots were taken. -/
structure RetreatResult where
  outcome : String
  screenshot_attempts : Nat
deriving DecidableEq

/-- `tactical_retreat`: a label whose `label_alias.get` is truthy continues
the round; otherwise a diagnostic screenshot of the challenge container is
taken (lookup failures swallowed) and the `backcall` outcome is returned from
the `finally` block. -/
def tactical_retreat (label : String) (container : ContainerLookup) : RetreatResult :=
  if truthy (dictGet label_alias label) then
    { outcome := CHALLENGE_CONTINUE, screenshot_attempts := 0 }
  else
    match container with
    | ContainerLookup.found =>
      { outcome := CHALLENGE_BACKCALL, screenshot_attempts := 1 }
    | ContainerLookup.missing =>
      { outcome := CHALLENGE_BACKCALL, screenshot_attempts := 0 }
    | ContainerLookup.webdriverErr =>
      { outcome := CHALLENGE_BACKCALL, screenshot_attempts := 0 }

/-- Per-round observable effects of the governing loop. -/
structure RoundTrace where
  outcome : String
  fetch_calls : Nat
  classify_calls : Nat
deriving DecidableEq

/-- Modelled from the spec: the governing loop (`anti_captcha`, whose body is
absent from this source file — only its docstring outline is present) runs
`tactical_retreat` before image download and classification; on a `backcall`
outcome the round ends immediately with zero fetch and zero classification
calls, otherwise each of the round's tiles is fetched and classified. -/
def challenge_round (label : String) (container : ContainerLookup) (n_tiles : Nat) : RoundTrace :=
  let r := tactical_retreat label container
  if r.outcome = CHALLENGE_BACKCALL then
    { outcome := CHALLENGE_BACKCALL, fetch_calls := 0, classify_calls := 0 }
  else
    { outcome := r.outcome, fetch_calls := n_tiles, classify_calls := n_tiles }

lemma dictGet_mem : ∀ (m : List (String × String)) (k a : String),
    dictGet m k = some a → a ∈ m.map Prod.snd := by
  intro m
  induction m with
  | nil => intro k a h; simp [dictGet] at h
  | cons kv rest ih =>
    intro k a h
    simp only [dictGet] at h
    by_cases hk : k = kv.1
    · rw [if_pos hk] at h
      simp only [List.map_cons, List.mem_cons]
      exact Or.inl (Option.some.inj h).symm
    · rw [if_neg hk] at h
      simp only [List.map_cons, List.mem_cons]
      exact Or.inr (ih k a h)

lemma label_alias_values_truthy (k a : String) (h : dictGet label_alias k = some a) :
    truthy (some a) = true := by
  have hm := dictGet_mem label_alias k a h
  simp only [label_alias, List.map_cons, List.map_nil, List.mem_cons,
    List.not_mem_nil, or_false] at hm
  rcases hm with h' | h' | h' | h' | h' | h' | h' | h' | h' | h' | h' | h' | h' | h' | h' | h' <;>
    subst h' <;> decide

/-- C3: a label absent from the alias mapping makes `tactical_retreat` return
`backcall` (taking the diagnostic screenshot whenever the challenge container
is found), and the round then performs zero image fetches and zero
classifications; a label present in the alias mapping makes
`tactical_retreat` return `continue`. -/
theorem tactical_retreat_outcomes (label : String) (container : ContainerLookup) (n : Nat) :
    (dictGet label_alias label = none →
        (tactical_retreat label container).outcome = CHALLENGE_BACKCALL
          ∧ (container = ContainerLookup.found →
              (tactical_retreat label container).screenshot_attempts = 1)
          ∧ challenge_round label container n
              = { outcome := CHALLENGE_BACKCALL, fetch_calls := 0, classify_calls := 0 })
      ∧ (∀ a, dictGet label_alias label = some a →
          tactical_retreat label container
            = { outcome := CHALLENGE_CONTINUE, screenshot_attempts := 0 }) := by
  constructor
  · intro h
    have houtcome : (tactical_retreat label container).outcome = CHALLENGE_BACKCALL := by
      cases container <;> simp [tactical_retreat, h, truthy]
    refine ⟨houtcome, ?_, ?_⟩
    · intro hc
      subst hc
      simp [tactical_retreat, h, truthy]
    · simp [challenge_round, houtcome]
  · intro a ha
    have := label_alias_values_truthy label a ha
    simp [tactical_retreat, ha, this]

/-- Witness for C3: the unmapped label "foo" retreats to `backcall` with a
screenshot; the mapped label "卡车" continues. -/
theorem tactical_retreat_outcomes_witness :
    (tactical_retreat "foo" ContainerLookup.found).outcome = CHALLENGE_BACKCALL
      ∧ tactical_retreat "卡车" ContainerLookup.found
          = { outcome := CHALLENGE_CONTINUE, screenshot_attempts := 0 } :=
  ⟨((tactical_retreat_outcomes "foo" ContainerLookup.found 9).1 (by decide)).1,
    (tactical_retreat_outcomes "卡车" ContainerLookup.found 9).2 "truck" (by decide)⟩

/-! The per-round tile registries and their population
(`__init__` lines 100-106, `mark_samples` lines 189-214,
`download_images` lines 282-303). -/

/-- Python `dict.update(\x7bk: v\x7d)`: overwrite in place when the key exists,
else append at the end (insertion order preserved). -/
def dictUpdate {α : Type} (m : List (String × α)) (k : String) (v : α) : List (String × α) :=
  if (m.map Prod.fst).contains k then
    m.map (fun kv => if kv.1 = k then (k, v) else kv)
  else m ++ [(k, v)]

/-- One challenge tile as the DOM hands it to `mark_samples`: its `aria-label`
alias, the url extracted from its inline style, and its element handle
(an opaque locator id). -/
structure Sample where
  tile_alias : String
  url : String
  locator : Nat
deriving DecidableEq

/-- The four parallel per-round registries of the session. -/
structure Registry where
  alias2locator : List (String × Nat)
  alias2url : List (String × String)
  alias2path : List (String × String)
  alias2answer : List (String × Bool)
deriving DecidableEq

/-- The registries as `__init__` leaves them: all four empty. -/
def init_registry : Registry :=
  { alias2locator := [], alias2url := [], alias2path := [], alias2answer := [] }

/-- `mark_samples` after its waits complete: for each tile element in DOM
order, store the style url under the alias, then the locator under the
alias. -/
def mark_samples (samples : List Sample) (reg : Registry) : Registry :=
  samples.foldl
    (fun r s =>
      { r with
        alias2url := dictUpdate r.alias2url s.tile_alias s.url,
        alias2locator := dictUpdate r.alias2locator s.tile_alias s.locator })
    reg

/-- `download_images`: writes one image file per `alias2url` entry into the
round workspace. The registries are returned untouched — no statement of the
source updates `alias2path` (or `alias2answer`); the second component lists
the files written, one per url entry. -/
def download_images (workspace : String) (reg : Registry) :
    Registry × List (String × String) :=
  (reg, reg.alias2url.map (fun kv => (workspace ++ "/" ++ kv.1 ++ ".png", kv.2)))

lemma map_fst_update {α : Type} (m : List (String × α)) (k : String) (v : α) :
    (m.map (fun kv => if kv.1 = k then (k, v) else kv)).map Prod.fst
      = (m.map Prod.fst).map (fun x => if x = k then k else x) := by
  induction m with
  | nil => rfl
  | cons kv rest ih =>
    simp only [List.map_cons]
    by_cases hk : kv.1 = k
    · rw [if_pos hk, if_pos hk, ih]
    · rw [if_neg hk, if_neg hk, ih]

lemma dictUpdate_keys {α β : Type} (m1 : List (String × α)) (m2 : List (String × β))
    (k : String) (v1 : α) (v2 : β) (h : m1.map Prod.fst = m2.map Prod.fst) :
    (dictUpdate m1 k v1).map Prod.fst = (dictUpdate m2 k v2).map Prod.fst := by
  unfold dictUpdate
  rw [h]
  by_cases hc : (m2.map Prod.fst).contains k
  · rw [if_pos hc, if_pos hc, map_fst_update, map_fst_update, h]
  · rw [if_neg hc, if_neg hc]
    simp [h]

lemma mark_samples_registry : ∀ (samples : List Sample) (reg : Registry),
    reg.alias2locator.map Prod.fst = reg.alias2url.map Prod.fst →
      ((mark_samples samples reg).alias2locator.map Prod.fst
          = (mark_samples samples reg).alias2url.map Prod.fst)
        ∧ (mark_samples samples reg).alias2path = reg.alias2path
        ∧ (mark_samples samples reg).alias2answer = reg.alias2answer := by
  intro samples
  induction samples with
  | nil => intro reg h; exact ⟨h, rfl, rfl⟩
  | cons s rest ih =>
    intro reg h
    have hstep : (dictUpdate reg.alias2locator s.tile_alias s.locator).map Prod.fst
        = (dictUpdate reg.alias2url s.tile_alias s.url).map Prod.fst :=
      dictUpdate_keys _ _ _ _ _ h
    exact ih _ hstep

/-- C5 counterexample: after `mark_samples` and `download_images` on a round
with one tile, the url registry has key set \x7b"a1"\x7d while the path registry is
empty (and so is the answer registry) — the four registries do not share a
key set. -/
theorem registry_key_sets_counterexample :
    (((download_images "ws" (mark_samples [⟨"a1", "u1", 0⟩] init_registry)).1.alias2path.map
        Prod.fst
      == (download_images "ws" (mark_samples [⟨"a1", "u1", 0⟩] init_registry)).1.alias2url.map
        Prod.fst) = false)
      ∧ (download_images "ws" (mark_samples [⟨"a1", "u1", 0⟩] init_registry)).1.alias2url.map
          Prod.fst = ["a1"]
      ∧ (download_images "ws" (mark_samples [⟨"a1", "u1", 0⟩] init_registry)).1.alias2path = []
      ∧ (download_images "ws" (mark_samples [⟨"a1", "u1", 0⟩] init_registry)).1.alias2answer
          = [] := by
  refine ⟨by decide, by decide, rfl, rfl⟩

/-- C5 (amended): once `mark_samples` and `download_images` complete for a
round that started from freshly-initialised registries, `alias2locator` and
`alias2url` share exactly the same key sequence, and one image file is
written per url entry; but `alias2path` and `alias2answer` are never
populated by this source — both remain empty. -/
theorem registries_after_fetch (samples : List Sample) (ws : String) :
    ((download_images ws (mark_samples samples init_registry)).1.alias2locator.map Prod.fst
        = (download_images ws (mark_samples samples init_registry)).1.alias2url.map Prod.fst)
      ∧ (download_images ws (mark_samples samples init_registry)).1.alias2path = []
      ∧ (download_images ws (mark_samples samples init_registry)).1.alias2answer = []
      ∧ (download_images ws (mark_samples samples init_registry)).2.length
          = (mark_samples samples init_registry).alias2url.length := by
  have h := mark_samples_registry samples init_registry rfl
  exact ⟨h.1, h.2.1, h.2.2, by simp [download_images]⟩

/-! The classify-click-submit protocol (`challenge`, `core.py` lines
305-358). The classification loop iterates the `alias2path` keys, reads each
image, asks the recognizer for a verdict and clicks positive tiles; the
submit phase waits for the submit control and clicks it. -/

/-- How one tile's `locator.click()` behaves: it succeeds, raises
`StaleElementReferenceException` (silently passed), or raises another
`WebDriverException` (logged as a warning). -/
inductive ClickBehavior where
  | ok
  | staleElement
  | otherWebDriver
deriving DecidableEq

/-- One tile as the classification loop sees it: its alias, the recognizer's
verdict on its image bytes (`model.solution`), and how its `click()` behaves
if invoked. -/
structure Tile where
  tile_alias : String
  classify : Bool
  click : ClickBehavior
deriving DecidableEq

/-- Observable effects of the classification loop: aliases whose click
completed, stale-element exceptions swallowed, and warnings logged. -/
structure ClickTrace where
  clicked : List String
  stale_swallowed : Nat
  warnings : Nat
deriving DecidableEq

/-- One iteration of the classification loop: click a positive tile,
swallowing a stale element and logging any other driver error; a negative
tile is left alone. -/
def click_step (tr : ClickTrace) (t : Tile) : ClickTrace :=
  if t.classify then
    match t.click with
    | ClickBehavior.ok => { tr with clicked := tr.clicked ++ [t.tile_alias] }
    | ClickBehavior.staleElement => { tr with stale_swallowed := tr.stale_swallowed + 1 }
    | ClickBehavior.otherWebDriver => { tr with warnings := tr.warnings + 1 }
  else tr

/-- The whole classification loop over the round's tiles, in order. -/
def click_phase (tiles : List Tile) : ClickTrace :=
  tiles.foldl click_step { clicked := [], stale_swallowed := 0, warnings := 0 }

/-- How the final submit interaction behaves: the click lands, it is
intercepted (`ElementClickInterceptedException`), or another
`WebDriverException` (including a wait timeout) is raised. -/
inductive SubmitBehavior where
  | clicked
  | intercepted
  | webdriverError
deriving DecidableEq

/-- The submit phase: an intercepted click is silently tolerated; any other
`WebDriverException` is re-raised as `SubmitException`. -/
def submit_answer : SubmitBehavior → Except ArmorException Unit
  | SubmitBehavior.clicked => Except.ok ()
  | SubmitBehavior.intercepted => Except.ok ()
  | SubmitBehavior.webdriverError => Except.error ArmorException.SubmitException

/-- `challenge`: classification loop, then answer submission. The trace
records every effect of the click phase; the `Except` component is the
round's control-flow result. -/
def challenge (tiles : List Tile) (submit : SubmitBehavior) :
    ClickTrace × Except ArmorException Unit :=
  (click_phase tiles, submit_answer submit)

lemma click_step_clicked (tr : ClickTrace) (t : Tile) :
    (click_step tr t).clicked
      = tr.clicked ++ (click_step { clicked := [], stale_swallowed := 0, warnings := 0 } t).clicked := by
  cases hc : t.classify <;> cases hk : t.click <;> simp [click_step, hc, hk]

lemma click_phase_foldl_clicked : ∀ (l : List Tile) (tr : ClickTrace),
    (l.foldl click_step tr).clicked = tr.clicked ++ (click_phase l).clicked := by
  intro l
  induction l with
  | nil => intro tr; simp [click_phase]
  | cons t rest ih =>
    intro tr
    show (rest.foldl click_step (click_step tr t)).clicked = _
    rw [ih (click_step tr t), click_step_clicked tr t]
    have : (click_phase (t :: rest)).clicked
        = (click_step { clicked := [], stale_swallowed := 0, warnings := 0 } t).clicked
            ++ (click_phase rest).clicked := by
      show (rest.foldl click_step (click_step _ t)).clicked = _
      rw [ih (click_step { clicked := [], stale_swallowed := 0, warnings := 0 } t)]
    rw [this, List.append_assoc]

/-- C4: answer submission tolerates a click-intercepted condition silently
(the round completes normally), while any other WebDriver failure surfaces
as `SubmitException`; on that failure the trace is exactly the click-phase
trace — no further click or registry effect happens after the submit
failure. -/
theorem challenge_submit_policy (tiles : List Tile) :
    (challenge tiles SubmitBehavior.intercepted).2 = Except.ok ()
      ∧ (challenge tiles SubmitBehavior.clicked).2 = Except.ok ()
      ∧ (challenge tiles SubmitBehavior.webdriverError).2
          = Except.error ArmorException.SubmitException
      ∧ (challenge tiles SubmitBehavior.webdriverError).1 = click_phase tiles :=
  ⟨rfl, rfl, rfl, rfl⟩

/-- C7: a stale-element error while clicking one tile is swallowed — the
tiles after it are still classified and clicked exactly as they would be on
their own, and no per-tile click exception alters the round's control-flow
result, which depends only on the submit interaction. -/
theorem challenge_stale_click_tolerated (xs ys : List Tile) (t : Tile)
    (h : t.click = ClickBehavior.staleElement) :
    (click_phase (xs ++ t :: ys)).clicked = (click_phase xs).clicked ++ (click_phase ys).clicked
      ∧ ∀ (tiles : List Tile) (submit : SubmitBehavior),
          (challenge tiles submit).2 = submit_answer submit := by
  constructor
  · have hmid : (click_step { clicked := [], stale_swallowed := 0, warnings := 0 } t).clicked
        = [] := by
      cases hc : t.classify <;> simp [click_step, hc, h]
    show ((xs ++ t :: ys).foldl click_step _).clicked = _
    rw [List.foldl_append]
    rw [click_phase_foldl_clicked (t :: ys) (xs.foldl click_step _)]
    show (xs.foldl click_step _).clicked ++ (click_phase (t :: ys)).clicked = _
    have htys : (click_phase (t :: ys)).clicked = (click_phase ys).clicked := by
      show (ys.foldl click_step (click_step _ t)).clicked = _
      rw [click_phase_foldl_clicked ys (click_step _ t), click_step_clicked _ t, hmid]
      simp
    rw [htys]
    rfl
  · intro tiles submit
    rfl

/-- Witness for C7 at a concrete round: a positive stale tile between two
other tiles leaves the others' clicks intact. -/
theorem challenge_stale_click_tolerated_witness :
    (click_phase
        [⟨"x1", true, ClickBehavior.ok⟩, ⟨"t", true, ClickBehavior.staleElement⟩,
          ⟨"y1", true, ClickBehavior.ok⟩, ⟨"y2", false, ClickBehavior.ok⟩]).clicked
      = ["x1", "y1"] := by
  have h := (challenge_stale_click_tolerated [⟨"x1", true, ClickBehavior.ok⟩]
    [⟨"y1", true, ClickBehavior.ok⟩, ⟨"y2", false, ClickBehavior.ok⟩]
    ⟨"t", true, ClickBehavior.staleElement⟩ rfl).1
  rw [show ([⟨"x1", true, ClickBehavior.ok⟩] ++
      (⟨"t", true, ClickBehavior.staleElement⟩ :
        Tile) :: [⟨"y1", true, ClickBehavior.ok⟩, ⟨"y2", false, ClickBehavior.ok⟩])
      = [⟨"x1", true, ClickBehavior.ok⟩, ⟨"t", true, ClickBehavior.staleElement⟩,
          ⟨"y1", true, ClickBehavior.ok⟩, ⟨"y2", false, ClickBehavior.ok⟩] from rfl] at h
  rw [h]
  decide

/-! Screenshot capture (`captcha_screenshot`, `core.py` lines 144-168). -/

/-- The exception classes relevant to `captcha_screenshot`'s ladder:
`AttributeError` (wrong context type — no `.screenshot` method) and any other
exception. -/
inductive PyExc where
  | attributeError
  | otherException
deriving DecidableEq

/-- How a screenshot call on the context behaves: it succeeds, or raises the
given exception. -/
inductive ShotBehavior where
  | ok
  | raises (e : PyExc)
deriving DecidableEq

/-- Python `os.path.dirname` for POSIX paths. -/
def dirnameStr (p : String) : String :=
  let rev := p.data.reverse
  if rev.contains '/' then
    let headRev := rev.dropWhile (fun c => c ≠ '/')
    if headRev.all (fun c => c = '/') then ⟨headRev.reverse⟩
    else ⟨(headRev.dropWhile (fun c => c = '/')).reverse⟩
  else ""

/-- Python `os.path.join` for POSIX paths, for a relative second component
(the only shape this source joins). -/
def pathJoin (a b : String) : String :=
  if a = "" then b
  else if a.data.getLast? = some '/' then a ++ b
  else a ++ "/" ++ b

/-- The screenshot filename: the caller-supplied name if any, else
time.suffix.png where the suffix is `label_alias.get(label, label)`. -/
def screenshot_filename (t : Nat) (label : String) : Option String → String
  | some name => name
  | none => toString t ++ "." ++ ((dictGet label_alias label).getD label) ++ ".png"

/-- The try/except ladder of `captcha_screenshot`: `ctx.screenshot` is tried;
on `AttributeError`, `ctx.save_screenshot` is tried instead (a failure inside
that handler is not handled by the ladder); any other exception is logged and
swallowed. -/
def try_screenshot (body save : ShotBehavior) : Except PyExc Unit :=
  match body with
  | ShotBehavior.ok => Except.ok ()
  | ShotBehavior.raises PyExc.attributeError =>
    (match save with
     | ShotBehavior.ok => Except.ok ()
     | ShotBehavior.raises e => Except.error e)
  | ShotBehavior.raises PyExc.otherException => Except.ok ()

/-- Python `return` inside a `finally` block: whatever is pending — a normal
completion or an in-flight exception — is discarded, and the `finally`
return value is returned. -/
def finallyReturn (pending : Except PyExc Unit) (ret : String) : Except PyExc String :=
  Except.ok ret

/-- `captcha_screenshot`: compute the output path (under the workspace
parent's `captcha_screenshot` directory), run the screenshot try/except
ladder, and return the output path from the `finally` block. -/
def captcha_screenshot (body save : ShotBehavior) (dir_workspace : String) (t : Nat)
    (label : String) (name_screenshot : Option String) : Except PyExc String :=
  let out_dir := pathJoin (dirnameStr dir_workspace) "captcha_screenshot"
  let out_path := pathJoin out_dir (screenshot_filename t label name_screenshot)
  finallyReturn (try_screenshot body save) out_path

/-- C10: `captcha_screenshot` is total at its interface — for every context
behaviour (success, wrong argument type, any driver error, even a failure of
the `save_screenshot` fallback inside the `AttributeError` handler) it
returns the computed output path and never raises; the last conjunct shows a
run in which an exception is genuinely pending when the `finally` return
discards it. -/
theorem captcha_screenshot_total (body save : ShotBehavior) (dws : String) (t : Nat)
    (label : String) (name : Option String) :
    captcha_screenshot body save dws t label name
        = Except.ok (pathJoin (pathJoin (dirnameStr dws) "captcha_screenshot")
            (screenshot_filename t label name))
      ∧ try_screenshot (ShotBehavior.raises PyExc.attributeError)
          (ShotBehavior.raises PyExc.otherException) = Except.error PyExc.otherException :=
  ⟨rfl, rfl⟩

/-! The per-tile style-url spin-wait of `mark_samples` (`core.py` lines
206-213): a `while True` loop that re-reads the tile's style attribute and
retries exactly while the slice raises `IndexError`. -/

/-- One iteration's url extraction: split the style string on the character
class `(`, `"`, `)` and take index 2; `none` is the `IndexError` case. -/
def extract_url (image_style : String) : Option String :=
  ((splitOnPred (fun c => c == '(' || c == '"' || c == ')') image_style.data)[2]?).map
    (fun l => (⟨l⟩ : String))

/-- The spin-wait, fuel-bounded: iteration `i` reads the style attribute
(`reads i`, since the DOM may change between iterations) and tries the
extraction; on `IndexError` it retries. `none` means the fuel ran out before
any extraction succeeded. -/
def spin_extract (reads : Nat → String) : Nat → Nat → Option String
  | _, 0 => none
  | i, fuel + 1 =>
    match extract_url (reads i) with
    | some u => some u
    | none => spin_extract reads (i + 1) fuel

/-- The input condition under which the spin-wait can stop: some iteration's
extraction succeeds. -/
def SpinTerminates (reads : Nat → String) : Prop :=
  ∃ i, (extract_url (reads i)).isSome

/-- The spin-wait runs forever: no fuel bound suffices, from any start
index. -/
def SpinDiverges (reads : Nat → String) : Prop :=
  ∀ i fuel, spin_extract reads i fuel = none

/-- A DOM whose style attribute reads never contain the delimiters, so every
extraction raises `IndexError`. -/
def constantBadStyle : Nat → String := fun _ => "x"

/-- A DOM whose style attribute yields a well-formed background-image url. -/
def goodStyleReads : Nat → String := fun _ => "background-image: url(\"https://imgs/a.png\")"

lemma spin_all_fail (reads : Nat → String) (h : ∀ i, extract_url (reads i) = none) :
    ∀ (fuel i : Nat), spin_extract reads i fuel = none := by
  intro fuel
  induction fuel with
  | zero => intro i; rfl
  | succ fuel ih =>
    intro i
    show (match extract_url (reads i) with
      | some u => some u
      | none => spin_extract reads (i + 1) fuel) = none
    rw [h i]
    exact ih (i + 1)

lemma spin_of_success (reads : Nat → String) :
    ∀ (n s : Nat), (extract_url (reads (s + n))).isSome →
      (spin_extract reads s (n + 1)).isSome := by
  intro n
  induction n with
  | zero =>
    intro s h
    rw [Nat.add_zero] at h
    show (match extract_url (reads s) with
      | some u => some u
      | none => spin_extract reads (s + 1) 0).isSome
    cases hv : extract_url (reads s) with
    | none => rw [hv] at h; simp at h
    | some u => simp
  | succ n ih =>
    intro s h
    show (match extract_url (reads s) with
      | some u => some u
      | none => spin_extract reads (s + 1) (n + 1)).isSome
    cases hv : extract_url (reads s) with
    | none =>
      refine ih (s + 1) ?_
      have : s + 1 + n = s + (n + 1) := by omega
      rw [this]
      exact h
    | some u => simp

/-- C9 counterexample: the per-tile spin-wait does not terminate for every
input — on a DOM whose style reads never contain the split delimiters, every
iteration raises `IndexError` and the `while True` loop never exits, under
any fuel bound. -/
theorem spin_wait_nonterminating_input :
    SpinDiverges constantBadStyle ∧ extract_url "x" = none := by
  constructor
  · intro i fuel
    exact spin_all_fail constantBadStyle (fun _ => rfl) fuel i
  · rfl

/-- C9 (amended): the spin-wait has no iteration bound; it terminates exactly
on those inputs for which some iteration's style-url extraction succeeds —
for an input whose extraction always raises the out-of-range error, it spins
forever. -/
theorem spin_wait_terminates_iff (reads : Nat → String) :
    (∃ fuel, (spin_extract reads 0 fuel).isSome) ↔ SpinTerminates reads := by
  constructor
  · rintro ⟨fuel, hf⟩
    by_contra hnt
    have hall : ∀ i, extract_url (reads i) = none := by
      intro i
      cases hv : extract_url (reads i) with
      | none => rfl
      | some u => exact absurd ⟨i, by rw [hv]; rfl⟩ hnt
    rw [spin_all_fail reads hall fuel 0] at hf
    simp at hf
  · rintro ⟨i, hi⟩
    exact ⟨i + 1, spin_of_success reads i 0 (by simpa using hi)⟩

/-- Witness for C9's amended theorem on a well-formed style input. -/
theorem spin_wait_terminates_iff_witness :
    ∃ fuel, (spin_extract goodStyleReads 0 fuel).isSome :=
  (spin_wait_terminates_iff goodStyleReads).mpr ⟨0, by decide⟩
